import Mathlib

/-!
Verification development for the GridAI grid-trading bot.

Shallow embedding of the crossing-execution controller (`GridTradingBot` in
the main bot module) and the persistence-side grid routines
(`src/database/grid.ts`).  Prices and token quantities are modelled as exact
rationals; JavaScript `number | null | undefined` fields are modelled as
`Option ℚ` / `Option ℕ`, and JS truthiness tests on numbers (`if (!x)`)
additionally treat `0` as absent, which the embedding mirrors explicitly.
The `levels` dictionary (keys `"0" .. "gridCount"`) is modelled as a
`List ℚ` whose position is the level index; `Object.entries` enumeration in
key order is `List.enumFrom 0`.
-/

set_option maxRecDepth 4000

/-- Direction of a grid trade (the `side` field of a trade document). -/
inductive TradeSide
  | BUY
  | SELL
  deriving DecidableEq, Repr

/-- The grid configuration document (`IGrid` in `grid.model.ts`), restricted
to the fields the controller and the persistence routines read. -/
structure Grid where
  sourceTokenSymbol : String
  targetTokenSymbol : String
  sourceTokenId : String
  targetTokenId : String
  upperLimit : ℚ
  lowerLimit : ℚ
  gridCount : ℕ
  quantityInvested : ℚ
  levels : List ℚ
  currentPrice : Option ℚ
  currentGridIndex : Option ℕ
  deriving DecidableEq, Repr

/-- Per-grid in-memory state kept in the bot's `gridStateMap`
(`currentGridIndex`, `lastCheckedPrice`, `tokenAmounts.source/.target`). -/
structure GridState where
  currentGridIndex : Option ℕ
  lastCheckedPrice : Option ℚ
  sourceAmount : ℚ
  targetAmount : ℚ
  deriving DecidableEq, Repr

/-- The argument tuple handed to `quoteAndSwap(inputMint, outputMint,
amount, slippageBps)`; `amount` is the `Math.floor(x * 1000000)` value. -/
structure SwapIntent where
  inputMint : String
  outputMint : String
  amount : ℤ
  slippageBps : ℕ
  deriving DecidableEq, Repr

/-- The trade document written by `createTrade`. -/
structure TradeRow where
  side : TradeSide
  inputToken : String
  outputToken : String
  inputTokenId : String
  outputTokenId : String
  inputAmount : ℚ
  outputAmount : ℚ
  gridLevel : ℕ
  profit : Option ℚ
  deriving DecidableEq, Repr

/-- One database side effect issued by the controller during a tick:
`checkpoint` is `updateGridCurrentPrice` (which stores the price together
with an index it recomputes itself), the others are
`updateGridTokenAmounts`, `incrementGridTrades` and `createTrade`. -/
inductive DbWrite
  | checkpoint (price : ℚ) (currentGridIndex : Option ℕ)
  | tokenAmounts (source target : ℚ)
  | incTrades (buys sells : ℕ)
  | trade (row : TradeRow)
  deriving DecidableEq, Repr

/-- Insert one `(index, price)` entry into a price-sorted list; building
block of the `.sort((a, b) => a.price - b.price)` step. -/
def insertByPrice (x : ℕ × ℚ) : List (ℕ × ℚ) → List (ℕ × ℚ)
  | [] => [x]
  | y :: ys => if x.2 ≤ y.2 then x :: y :: ys else y :: insertByPrice x ys

/-- Sort `(index, price)` entries by price — the
`.sort((a, b) => a.price - b.price)` call in `findGridLevelIndex` and
`updateGridCurrentPrice`. -/
def sortByPrice : List (ℕ × ℚ) → List (ℕ × ℚ)
  | [] => []
  | x :: xs => insertByPrice x (sortByPrice xs)

/-- The linear scan `for (i; i < levels.length - 1; i++) if (price >=
levels[i].price && price < levels[i+1].price) return levels[i].index`. -/
def scanLevels (price : ℚ) : List (ℕ × ℚ) → Option ℕ
  | a :: b :: rest =>
    if a.2 ≤ price ∧ price < b.2 then some a.1 else scanLevels price (b :: rest)
  | _ => none

/-- Model of `Object.entries(grid.levels)` as `(index, price)` pairs in key order. -/
def levelPairs (g : Grid) : List (ℕ × ℚ) := g.levels.enumFrom 0

/-- Embedding of `GridTradingBot.findGridLevelIndex`: clamp at the configured limits,
otherwise scan the price-sorted level table for the half-open slot;
fall back to the middle level if no slot matches. -/
def findGridLevelIndex (g : Grid) (price : ℚ) : ℕ :=
  if g.upperLimit ≤ price then g.gridCount
  else if price ≤ g.lowerLimit then 0
  else
    match scanLevels price (sortByPrice (levelPairs g)) with
    | some i => i
    | none => g.gridCount / 2

/-- The index recomputation inside `updateGridCurrentPrice` (grid.ts):
same sorted scan, but with no clamping branches and `null` when no slot
matches. -/
def dbProjectIndex (g : Grid) (price : ℚ) : Option ℕ :=
  scanLevels price (sortByPrice (levelPairs g))

/-- Embedding of `updateGridCurrentPrice(id, price)`: persist the price and the index
recomputed by `dbProjectIndex`. -/
def updateGridCurrentPrice (g : Grid) (currentPrice : ℚ) : Grid :=
  { g with currentPrice := some currentPrice,
           currentGridIndex := dbProjectIndex g currentPrice }

/-- Rounding step `Number(price.toFixed(6))` on a nonnegative price: round to six decimal
places, ties upward. -/
def round6 (x : ℚ) : ℚ := (⌊x * 1000000 + 1 / 2⌋ : ℚ) / 1000000

/-- The level table recomputed by `updateGridPriceLimits`: evenly spaced
boundaries over `[lowerLimit, upperLimit]`, each rounded via `toFixed(6)`. -/
def newLevelTable (lowerLimit upperLimit : ℚ) (gridCount : ℕ) : List ℚ :=
  (List.range (gridCount + 1)).map
    (fun i : ℕ =>
      round6 (lowerLimit + ((upperLimit - lowerLimit) / (gridCount : ℚ)) * (i : ℚ)))

/-- Embedding of `updateGridPriceLimits(id, upperLimit, lowerLimit, gridCount?)`
(grid.ts): validate, rebuild the level table, and reproject
`currentGridIndex` from the stored `currentPrice` (a falsy stored price,
`null`/`undefined`/`0`, leaves the index `null`). -/
def updateGridPriceLimits (g : Grid) (upperLimit lowerLimit : ℚ)
    (gridCount? : Option ℕ) : Option Grid :=
  if upperLimit ≤ lowerLimit then none
  else
    let newGridCount := gridCount?.getD g.gridCount
    if newGridCount < 2 then none
    else
      let levels := newLevelTable lowerLimit upperLimit newGridCount
      let currentGridIndex : Option ℕ :=
        match g.currentPrice with
        | none => none
        | some currentPrice =>
          if currentPrice = 0 then none
          else if currentPrice ≤ lowerLimit then some 0
          else if upperLimit ≤ currentPrice then some newGridCount
          else scanLevels currentPrice (levels.enumFrom 0)
      some { g with upperLimit := upperLimit, lowerLimit := lowerLimit,
                    gridCount := newGridCount, levels := levels,
                    currentGridIndex := currentGridIndex }

/-- Embedding of `GridTradingBot.executeBuyTrade`: look up the level price (falsy — missing
or `0` — aborts), build the swap call, and on swap success update balances and
record the trade row.  Returns the new state, the database writes, and the
swap intent that was sent (if any). -/
def executeBuyTrade (g : Grid) (levelIndex : ℕ) (st : GridState)
    (exec : SwapIntent → Bool) : GridState × List DbWrite × Option SwapIntent :=
  match g.levels.get? levelIndex with
  | none => (st, [], none)
  | some levelPrice =>
    if levelPrice = 0 then (st, [], none)
    else
      let usdInvestmentPerLevel := g.quantityInvested / (g.gridCount : ℚ)
      let sourceTokenAmount := usdInvestmentPerLevel / levelPrice
      let intent : SwapIntent :=
        { inputMint := g.sourceTokenId, outputMint := g.targetTokenId,
          amount := ⌊usdInvestmentPerLevel * 1000000⌋, slippageBps := 100 }
      if exec intent then
        let st' := { st with sourceAmount := st.sourceAmount + sourceTokenAmount,
                             targetAmount := st.targetAmount - usdInvestmentPerLevel }
        (st',
         [DbWrite.tokenAmounts st'.sourceAmount st'.targetAmount,
          DbWrite.incTrades 1 0,
          DbWrite.trade
            { side := TradeSide.BUY,
              inputToken := g.targetTokenSymbol, outputToken := g.sourceTokenSymbol,
              inputTokenId := g.targetTokenId, outputTokenId := g.sourceTokenId,
              inputAmount := sourceTokenAmount, outputAmount := usdInvestmentPerLevel,
              gridLevel := levelIndex, profit := none }],
         some intent)
      else (st, [], some intent)

/-- Embedding of `GridTradingBot.executeSellTrade`.  The reference buy price for profit is
`levels[levelIndex-1]` when `levelIndex > 0`, else `lowerLimit`; an
out-of-range `levels[levelIndex-1]` lookup is `undefined` (NaN profit) in the
source and is modelled by the default `0` (unreachable on well-formed grids). -/
def executeSellTrade (g : Grid) (levelIndex : ℕ) (st : GridState)
    (exec : SwapIntent → Bool) : GridState × List DbWrite × Option SwapIntent :=
  match g.levels.get? levelIndex with
  | none => (st, [], none)
  | some levelPrice =>
    if levelPrice = 0 then (st, [], none)
    else
      let baseAmount := g.quantityInvested / (g.gridCount : ℚ) / levelPrice
      let sourceTokenAmount := baseAmount
      let targetTokenAmount := sourceTokenAmount * levelPrice
      let intent : SwapIntent :=
        { inputMint := g.sourceTokenId, outputMint := g.targetTokenId,
          amount := ⌊sourceTokenAmount * 1000000⌋, slippageBps := 100 }
      if exec intent then
        let buyPrice := if 0 < levelIndex then g.levels.getD (levelIndex - 1) 0
                        else g.lowerLimit
        let sellPrice := levelPrice
        let profit := (sellPrice - buyPrice) * sourceTokenAmount
        let st' := { st with sourceAmount := st.sourceAmount - sourceTokenAmount,
                             targetAmount := st.targetAmount + targetTokenAmount }
        (st',
         [DbWrite.tokenAmounts st'.sourceAmount st'.targetAmount,
          DbWrite.incTrades 0 1,
          DbWrite.trade
            { side := TradeSide.SELL,
              inputToken := g.sourceTokenSymbol, outputToken := g.targetTokenSymbol,
              inputTokenId := g.sourceTokenId, outputTokenId := g.targetTokenId,
              inputAmount := sourceTokenAmount, outputAmount := targetTokenAmount,
              gridLevel := levelIndex, profit := some profit }],
         some intent)
      else (st, [], some intent)

/-- The crossing sequence the controller replays in `processGrid`:
rising prices run `for (i = prev+1; i <= new; i++) executeSellTrade(i)`,
falling prices run `for (i = prev; i > new; i--) executeBuyTrade(i)`. -/
def resolveCrossings (previousGridIndex newGridIndex : ℕ) : List (TradeSide × ℕ) :=
  if previousGridIndex < newGridIndex then
    (List.range (newGridIndex - previousGridIndex)).map
      (fun k => (TradeSide.SELL, previousGridIndex + 1 + k))
  else if newGridIndex < previousGridIndex then
    (List.range (previousGridIndex - newGridIndex)).map
      (fun k => (TradeSide.BUY, previousGridIndex - k))
  else []

/-- Run the resolved crossings in order, threading the in-memory state and
collecting database writes and swap intents. -/
def runCrossings (g : Grid) (exec : SwapIntent → Bool) :
    GridState → List (TradeSide × ℕ) → GridState × List DbWrite × List SwapIntent
  | st, [] => (st, [], [])
  | st, c :: rest =>
    let r :=
      match c.1 with
      | TradeSide.BUY => executeBuyTrade g c.2 st exec
      | TradeSide.SELL => executeSellTrade g c.2 st exec
    let r' := runCrossings g exec r.1 rest
    (r'.1, r.2.1 ++ r'.2.1, r.2.2.toList ++ r'.2.2)

/-- Embedding of `GridTradingBot.processGrid` for one grid and one tick, as a pure
function of the fetched price (`none`, like a falsy price value, skips the
grid), the in-memory state, and the swap venue's success oracle. -/
def processGrid (g : Grid) (currentPrice? : Option ℚ) (st : GridState)
    (exec : SwapIntent → Bool) : GridState × List DbWrite × List SwapIntent :=
  match currentPrice? with
  | none => (st, [], [])
  | some currentPrice =>
    if currentPrice = 0 then (st, [], [])
    else
      let st1 := { st with lastCheckedPrice := some currentPrice }
      let newGridIndex := findGridLevelIndex g currentPrice
      match st.currentGridIndex with
      | none =>
        ({ st1 with currentGridIndex := some newGridIndex },
         [DbWrite.checkpoint currentPrice (dbProjectIndex g currentPrice)], [])
      | some previousGridIndex =>
        if newGridIndex = previousGridIndex then (st1, [], [])
        else
          let r := runCrossings g exec st1 (resolveCrossings previousGridIndex newGridIndex)
          ({ r.1 with currentGridIndex := some newGridIndex },
           r.2.1 ++ [DbWrite.checkpoint currentPrice (dbProjectIndex g currentPrice)],
           r.2.2)

/-- The GridConfig data-model invariant from the spec (§3): the level table
has `gridCount + 1` strictly increasing boundaries, anchored at the
configured limits, with at least two levels. -/
def WellFormedGrid (g : Grid) : Prop :=
  g.levels.length = g.gridCount + 1 ∧
  g.levels.Chain' (· < ·) ∧
  g.levels.getD 0 0 = g.lowerLimit ∧
  g.levels.getD g.gridCount 0 = g.upperLimit ∧
  2 ≤ g.gridCount

/-- The level of a database write if it is a trade row. -/
def tradeLevel? : DbWrite → Option ℕ
  | DbWrite.trade r => some r.gridLevel
  | _ => none

/-- Levels of the trade rows among a tick's database writes, in order. -/
def tradeLevels (ws : List DbWrite) : List ℕ := ws.filterMap tradeLevel?

/-- A concrete SOL/USDC grid over `[100, 125]` with five levels
(`levels[i] = 100 + 5 i`) and 100 USDC invested. -/
def gE : Grid :=
  { sourceTokenSymbol := "SOL", targetTokenSymbol := "USDC",
    sourceTokenId := "SOLID", targetTokenId := "USDCID",
    upperLimit := 125, lowerLimit := 100, gridCount := 5,
    quantityInvested := 100, levels := [100, 105, 110, 115, 120, 125],
    currentPrice := some 100, currentGridIndex := some 0 }

/-- Tracking state for `gE` at level 0. -/
def stE : GridState :=
  { currentGridIndex := some 0, lastCheckedPrice := some 100,
    sourceAmount := 10, targetAmount := 1000 }

/-- Uninitialized state for `gE` (no level recorded yet). -/
def stInit : GridState :=
  { currentGridIndex := none, lastCheckedPrice := none,
    sourceAmount := 10, targetAmount := 1000 }

/-- Tracking state for `gE` at level 1 (the level of price 106). -/
def stSame : GridState :=
  { currentGridIndex := some 1, lastCheckedPrice := some 106,
    sourceAmount := 10, targetAmount := 1000 }

/-- A venue oracle that rejects exactly the sell at level 3 of `gE`
(its floored input amount is `⌊20/115 * 10^6⌋ = 173913`) and accepts
every other swap. -/
def execE : SwapIntent → Bool := fun it => decide (it.amount ≠ 173913)

/-- Base grid for the range-edit scenario: last observed price 106. -/
def g8 : Grid :=
  { sourceTokenSymbol := "SOL", targetTokenSymbol := "USDC",
    sourceTokenId := "SOLID", targetTokenId := "USDCID",
    upperLimit := 120, lowerLimit := 100, gridCount := 4,
    quantityInvested := 100, levels := [100, 105, 110, 115, 120],
    currentPrice := some 106, currentGridIndex := some 1 }

/-! ### Order and scan lemmas -/

theorem insertByPrice_cons_of_le (x y : ℕ × ℚ) (ys : List (ℕ × ℚ)) (h : x.2 ≤ y.2) :
    insertByPrice x (y :: ys) = x :: y :: ys := by
  simp [insertByPrice, h]

theorem sortByPrice_eq_self : ∀ {l : List (ℕ × ℚ)},
    l.Chain' (fun a b => a.2 ≤ b.2) → sortByPrice l = l
  | [], _ => rfl
  | [_], _ => rfl
  | x :: y :: ys, h => by
    rw [List.chain'_cons] at h
    rw [sortByPrice, sortByPrice_eq_self h.2]
    exact insertByPrice_cons_of_le x y ys h.1

theorem chain'_enumFrom_le : ∀ (k : ℕ) {t : List ℚ}, t.Chain' (· < ·) →
    (t.enumFrom k).Chain' (fun a b : ℕ × ℚ => a.2 ≤ b.2)
  | _, [], _ => List.chain'_nil
  | _, [_], _ => List.chain'_singleton _
  | k, a :: b :: t, h => by
    rw [List.chain'_cons] at h
    exact List.chain'_cons.mpr ⟨le_of_lt h.1, chain'_enumFrom_le (k + 1) h.2⟩

theorem getD_eq_get (l : List ℚ) (i : ℕ) (h : i < l.length) (d : ℚ) :
    l.getD i d = l.get ⟨i, h⟩ := by
  rw [List.getD_eq_getElem?_getD, List.getElem?_eq_getElem h]
  rfl

theorem chain'_getD_lt {t : List ℚ} (h : t.Chain' (· < ·)) {i j : ℕ}
    (hij : i < j) (hj : j < t.length) : t.getD i 0 < t.getD j 0 := by
  have hp : t.Pairwise (· < ·) := List.chain'_iff_pairwise.mp h
  have hi : i < t.length := lt_trans hij hj
  rw [getD_eq_get t i hi 0, getD_eq_get t j hj 0]
  exact List.pairwise_iff_get.mp hp ⟨i, hi⟩ ⟨j, hj⟩ hij

theorem chain'_getD_le {t : List ℚ} (h : t.Chain' (· < ·)) {i j : ℕ}
    (hij : i ≤ j) (hj : j < t.length) : t.getD i 0 ≤ t.getD j 0 := by
  rcases lt_or_eq_of_le hij with hlt | rfl
  · exact le_of_lt (chain'_getD_lt h hlt hj)
  · exact le_rfl

theorem head_le_of_mem {t : List ℚ} (h : t.Chain' (· < ·)) {x : ℚ} (hx : x ∈ t) :
    t.getD 0 0 ≤ x := by
  obtain ⟨⟨n, hn⟩, rfl⟩ := List.mem_iff_get.mp hx
  rw [← getD_eq_get t n hn 0]
  exact chain'_getD_le h (Nat.zero_le n) hn

theorem mem_le_last {t : List ℚ} (h : t.Chain' (· < ·)) {x : ℚ} (hx : x ∈ t) :
    x ≤ t.getD (t.length - 1) 0 := by
  obtain ⟨⟨n, hn⟩, rfl⟩ := List.mem_iff_get.mp hx
  rw [← getD_eq_get t n hn 0]
  exact chain'_getD_le h (by omega) (by omega)

theorem snd_mem_of_mem_enumFrom : ∀ {k : ℕ} {t : List ℚ} {a : ℕ × ℚ},
    a ∈ t.enumFrom k → a.2 ∈ t
  | _, [], _, ha => absurd ha (List.not_mem_nil _)
  | k, x :: t, a, ha => by
    rcases List.mem_cons.mp ha with rfl | ha
    · exact List.mem_cons_self _ _
    · exact List.mem_cons_of_mem _ (snd_mem_of_mem_enumFrom ha)

theorem scanLevels_eq_none_of_lt {p : ℚ} : ∀ {l : List (ℕ × ℚ)},
    (∀ a ∈ l, p < a.2) → scanLevels p l = none
  | [], _ => rfl
  | [_], _ => rfl
  | a :: b :: l, h => by
    have ha : p < a.2 := h a (List.mem_cons_self _ _)
    rw [scanLevels, if_neg (by rintro ⟨h1, -⟩; exact absurd ha (not_lt.mpr h1))]
    exact scanLevels_eq_none_of_lt (fun x hx => h x (List.mem_cons_of_mem _ hx))

theorem scanLevels_eq_none_of_le {p : ℚ} : ∀ {l : List (ℕ × ℚ)},
    (∀ a ∈ l, a.2 ≤ p) → scanLevels p l = none
  | [], _ => rfl
  | [_], _ => rfl
  | a :: b :: l, h => by
    have hb : b.2 ≤ p := h b (List.mem_cons_of_mem _ (List.mem_cons_self _ _))
    rw [scanLevels, if_neg (by rintro ⟨-, h2⟩; exact absurd hb (not_le.mpr h2))]
    exact scanLevels_eq_none_of_le (fun x hx => h x (List.mem_cons_of_mem _ hx))

theorem scanLevels_enumFrom_eq_some {p : ℚ} : ∀ (k j : ℕ) {t : List ℚ},
    t.Chain' (· < ·) → j + 1 < t.length →
    t.getD j 0 ≤ p → p < t.getD (j + 1) 0 →
    scanLevels p (t.enumFrom k) = some (k + j)
  | k, j, [], _, hj, _, _ => absurd hj (by simp)
  | k, j, [_], _, hj, _, _ => absurd hj (by simp)
  | k, 0, a :: b :: t, _, _, h1, h2 => by
    rw [show (a :: b :: t).enumFrom k = (k, a) :: (k + 1, b) :: t.enumFrom (k + 2) from rfl]
    rw [scanLevels, if_pos ⟨by simpa using h1, by simpa using h2⟩]
    simp
  | k, j + 1, a :: b :: t, hc, hj, h1, h2 => by
    rw [List.chain'_cons] at hc
    have hb : b ≤ p := by
      have hmono : (b :: t).getD 0 0 ≤ (b :: t).getD j 0 :=
        chain'_getD_le hc.2 (Nat.zero_le j) (by simp only [List.length_cons] at hj ⊢; omega)
      simp only [List.getD_cons_zero] at hmono
      exact le_trans hmono (by simpa using h1)
    rw [show (a :: b :: t).enumFrom k = (k, a) :: (k + 1, b) :: t.enumFrom (k + 2) from rfl]
    rw [scanLevels, if_neg (by rintro ⟨-, h2'⟩; exact absurd hb (not_le.mpr h2'))]
    have hrec := scanLevels_enumFrom_eq_some (k + 1) j hc.2
      (by simp only [List.length_cons] at hj ⊢; omega) (by simpa using h1) (by simpa using h2)
    rw [show ((k + 1, b) :: t.enumFrom (k + 2)) = (b :: t).enumFrom (k + 1) from rfl, hrec]
    congr 1
    omega

theorem exists_adjacent_slot {p : ℚ} : ∀ {t : List ℚ}, t ≠ [] →
    t.getD 0 0 ≤ p → p < t.getD (t.length - 1) 0 →
    ∃ j, j + 1 < t.length ∧ t.getD j 0 ≤ p ∧ p < t.getD (j + 1) 0
  | [], h, _, _ => absurd rfl h
  | [a], _, h1, h2 =>
    absurd (lt_of_le_of_lt (show a ≤ p by simpa using h1) (show p < a by simpa using h2))
      (lt_irrefl a)
  | a :: b :: t, _, h1, h2 => by
    by_cases hb : p < b
    · exact ⟨0, by simp, by simpa using h1, by simpa using hb⟩
    · obtain ⟨j, hj, hs1, hs2⟩ :=
        exists_adjacent_slot (t := b :: t) (by simp) (by simpa using not_lt.mp hb)
          (by simpa using h2)
      exact ⟨j + 1, by simpa using hj, by simpa using hs1, by simpa using hs2⟩

theorem slot_unique {t : List ℚ} (h : t.Chain' (· < ·)) {p : ℚ} {j k : ℕ}
    (hj : j + 1 < t.length) (hk : k + 1 < t.length)
    (hj1 : t.getD j 0 ≤ p) (hj2 : p < t.getD (j + 1) 0)
    (hk1 : t.getD k 0 ≤ p) (hk2 : p < t.getD (k + 1) 0) : j = k := by
  rcases lt_trichotomy j k with hlt | heq | hgt
  · exfalso
    have hstep : t.getD (j + 1) 0 ≤ t.getD k 0 := chain'_getD_le h (by omega) (by omega)
    exact absurd (lt_of_lt_of_le hj2 (le_trans hstep hk1)) (lt_irrefl p)
  · exact heq
  · exfalso
    have hstep : t.getD (k + 1) 0 ≤ t.getD j 0 := chain'_getD_le h (by omega) (by omega)
    exact absurd (lt_of_lt_of_le hk2 (le_trans hstep hj1)) (lt_irrefl p)

/-! ### Characterization of the level locator on well-formed grids -/

theorem WellFormedGrid.lower_lt_upper {g : Grid} (hw : WellFormedGrid g) :
    g.lowerLimit < g.upperLimit := by
  obtain ⟨hlen, hchain, hlo, hhi, hn⟩ := hw
  rw [← hlo, ← hhi]
  exact chain'_getD_lt hchain (by omega) (by omega)

theorem findGridLevelIndex_of_le_lower {g : Grid} (hw : WellFormedGrid g) {p : ℚ}
    (hp : p ≤ g.lowerLimit) : findGridLevelIndex g p = 0 := by
  rw [findGridLevelIndex,
    if_neg (not_le.mpr (lt_of_le_of_lt hp hw.lower_lt_upper)), if_pos hp]

theorem findGridLevelIndex_of_upper_le {g : Grid} {p : ℚ}
    (hp : g.upperLimit ≤ p) : findGridLevelIndex g p = g.gridCount := by
  rw [findGridLevelIndex, if_pos hp]

theorem sortByPrice_levelPairs_eq {g : Grid} (hw : WellFormedGrid g) :
    sortByPrice (levelPairs g) = levelPairs g :=
  sortByPrice_eq_self (chain'_enumFrom_le 0 hw.2.1)

theorem findGridLevelIndex_interior {g : Grid} (hw : WellFormedGrid g) {p : ℚ}
    (h1 : g.lowerLimit < p) (h2 : p < g.upperLimit) :
    scanLevels p (levelPairs g) = some (findGridLevelIndex g p) ∧
    findGridLevelIndex g p + 1 ≤ g.gridCount ∧
    g.levels.getD (findGridLevelIndex g p) 0 ≤ p ∧
    p < g.levels.getD (findGridLevelIndex g p + 1) 0 := by
  obtain ⟨hlen, hchain, hlo, hhi, hn⟩ := hw
  have hne : g.levels ≠ [] := List.length_pos.mp (by omega)
  have hA : g.levels.getD 0 0 ≤ p := by rw [hlo]; exact le_of_lt h1
  have hB : p < g.levels.getD (g.levels.length - 1) 0 := by
    rw [show g.levels.length - 1 = g.gridCount from by omega, hhi]
    exact h2
  obtain ⟨j, hj, hs1, hs2⟩ := exists_adjacent_slot (p := p) hne hA hB
  have hscan : scanLevels p (levelPairs g) = some j := by
    simpa using scanLevels_enumFrom_eq_some 0 j hchain hj hs1 hs2
  have hfind : findGridLevelIndex g p = j := by
    rw [findGridLevelIndex, if_neg (not_le.mpr h2), if_neg (not_le.mpr h1),
      sortByPrice_levelPairs_eq ⟨hlen, hchain, hlo, hhi, hn⟩, hscan]
  rw [hfind]
  exact ⟨hscan, by omega, hs1, hs2⟩

theorem findGridLevelIndex_le {g : Grid} (hw : WellFormedGrid g) (p : ℚ) :
    findGridLevelIndex g p ≤ g.gridCount := by
  rcases le_or_lt g.upperLimit p with hp | hp
  · rw [findGridLevelIndex_of_upper_le hp]
  · rcases le_or_lt p g.lowerLimit with hq | hq
    · rw [findGridLevelIndex_of_le_lower hw hq]; omega
    · have h := (findGridLevelIndex_interior hw hq hp).2.1
      omega

/-! ### Crossing resolution -/

theorem resolveCrossings_getD_sell {prev new : ℕ} (h : prev < new) {i : ℕ}
    (hi : i < new - prev) :
    (resolveCrossings prev new).getD i (TradeSide.BUY, 0) = (TradeSide.SELL, prev + 1 + i) := by
  rw [resolveCrossings, if_pos h, List.getD_eq_getElem?_getD,
    List.getElem?_eq_getElem (by simpa using hi), List.getElem_map, List.getElem_range]
  rfl

theorem resolveCrossings_getD_buy {prev new : ℕ} (h : new < prev) {i : ℕ}
    (hi : i < prev - new) :
    (resolveCrossings prev new).getD i (TradeSide.SELL, 0) = (TradeSide.BUY, prev - i) := by
  rw [resolveCrossings, if_neg (by omega), if_pos h, List.getD_eq_getElem?_getD,
    List.getElem?_eq_getElem (by simpa using hi), List.getElem_map, List.getElem_range]
  rfl

theorem resolveCrossings_length_sell {prev new : ℕ} (h : prev < new) :
    (resolveCrossings prev new).length = new - prev := by
  rw [resolveCrossings, if_pos h, List.length_map, List.length_range]

theorem resolveCrossings_length_buy {prev new : ℕ} (h : new < prev) :
    (resolveCrossings prev new).length = prev - new := by
  rw [resolveCrossings, if_neg (by omega), if_pos h, List.length_map, List.length_range]

theorem resolveCrossings_self (l : ℕ) : resolveCrossings l l = [] := by
  rw [resolveCrossings, if_neg (lt_irrefl l), if_neg (lt_irrefl l)]

theorem resolveCrossings_level_le {prev new n : ℕ} (hp : prev ≤ n) (hn : new ≤ n) :
    ∀ c ∈ resolveCrossings prev new, c.2 ≤ n := by
  intro c hc
  rw [resolveCrossings] at hc
  split_ifs at hc with h1 h2
  · obtain ⟨k, hk, rfl⟩ := List.mem_map.mp hc
    rw [List.mem_range] at hk
    simp only
    omega
  · obtain ⟨k, hk, rfl⟩ := List.mem_map.mp hc
    rw [List.mem_range] at hk
    simp only
    omega
  · exact absurd hc (List.not_mem_nil c)

/-! ### Trade execution helpers -/

theorem executeBuyTrade_intent_length {g : Grid} {lvl : ℕ} {st : GridState}
    {exec : SwapIntent → Bool} {q : ℚ} (hq : g.levels.get? lvl = some q) (h0 : q ≠ 0) :
    (executeBuyTrade g lvl st exec).2.2.toList.length = 1 := by
  unfold executeBuyTrade
  rw [hq]
  simp only [if_neg h0]
  split <;> simp

theorem executeSellTrade_intent_length {g : Grid} {lvl : ℕ} {st : GridState}
    {exec : SwapIntent → Bool} {q : ℚ} (hq : g.levels.get? lvl = some q) (h0 : q ≠ 0) :
    (executeSellTrade g lvl st exec).2.2.toList.length = 1 := by
  unfold executeSellTrade
  rw [hq]
  simp only [if_neg h0]
  split <;> simp

theorem runCrossings_intents_length (g : Grid) (exec : SwapIntent → Bool) :
    ∀ (cs : List (TradeSide × ℕ)) (st : GridState),
      (∀ c ∈ cs, ∃ q, g.levels.get? c.2 = some q ∧ q ≠ 0) →
      (runCrossings g exec st cs).2.2.length = cs.length
  | [], _, _ => rfl
  | c :: cs, st, h => by
    obtain ⟨q, hq, h0⟩ := h c (List.mem_cons_self _ _)
    rw [runCrossings]
    simp only [List.length_append, List.length_cons]
    rw [runCrossings_intents_length g exec cs _ (fun x hx => h x (List.mem_cons_of_mem _ hx))]
    rcases c with ⟨side, lvl⟩
    cases side
    · rw [show (match (TradeSide.BUY, lvl).1 with
        | TradeSide.BUY => executeBuyTrade g (TradeSide.BUY, lvl).2 st exec
        | TradeSide.SELL => executeSellTrade g (TradeSide.BUY, lvl).2 st exec) =
          executeBuyTrade g lvl st exec from rfl]
      rw [executeBuyTrade_intent_length hq h0]
      omega
    · rw [show (match (TradeSide.SELL, lvl).1 with
        | TradeSide.BUY => executeBuyTrade g (TradeSide.SELL, lvl).2 st exec
        | TradeSide.SELL => executeSellTrade g (TradeSide.SELL, lvl).2 st exec) =
          executeSellTrade g lvl st exec from rfl]
      rw [executeSellTrade_intent_length hq h0]
      omega

theorem levels_get?_pos {g : Grid} (hw : WellFormedGrid g) (hpos : 0 < g.lowerLimit)
    {i : ℕ} (hi : i ≤ g.gridCount) : ∃ q, g.levels.get? i = some q ∧ q ≠ 0 := by
  have hlen : i < g.levels.length := by
    have h1 := hw.1
    omega
  refine ⟨g.levels.getD i 0, ?_, ?_⟩
  · rw [List.get?_eq_getElem?, List.getElem?_eq_getElem hlen,
      List.getD_eq_getElem?_getD, List.getElem?_eq_getElem hlen]
    rfl
  · have hlow : g.levels.getD 0 0 ≤ g.levels.getD i 0 :=
      chain'_getD_le hw.2.1 (Nat.zero_le i) hlen
    rw [hw.2.2.1] at hlow
    exact ne_of_gt (lt_of_lt_of_le hpos hlow)

/-! ### Claim theorems: crossing resolution -/

/-- Claim C5: for every `previousLevel < newLevel`, crossing resolution emits
exactly `newLevel - previousLevel` SELL crossings covering the levels
`previousLevel+1 .. newLevel` in ascending order. -/
theorem resolveCrossings_sell_ascending (previousLevel newLevel : ℕ)
    (h : previousLevel < newLevel) :
    (resolveCrossings previousLevel newLevel).length = newLevel - previousLevel ∧
    ∀ i, i < newLevel - previousLevel →
      (resolveCrossings previousLevel newLevel).getD i (TradeSide.BUY, 0) =
        (TradeSide.SELL, previousLevel + 1 + i) :=
  ⟨resolveCrossings_length_sell h, fun _ hi => resolveCrossings_getD_sell h hi⟩

/-- Witness for C5 at `previousLevel = 1`, `newLevel = 4`. -/
theorem resolveCrossings_sell_ascending_witness :
    1 < 4 ∧
    ((resolveCrossings 1 4).length = 4 - 1 ∧
      ∀ i, i < 4 - 1 →
        (resolveCrossings 1 4).getD i (TradeSide.BUY, 0) = (TradeSide.SELL, 1 + 1 + i)) :=
  ⟨by decide, resolveCrossings_sell_ascending 1 4 (by decide)⟩

/-- Counterexample to claim C2 as stated: falling from level 3 to level 1 the
controller buys at levels 3 and 2 (the interval `(new, prev]`), not at levels
2 and 1 (the claimed `[new, prev)`). -/
theorem resolveCrossings_buy_halfopen_counterexample :
    resolveCrossings 3 1 = [(TradeSide.BUY, 3), (TradeSide.BUY, 2)] ∧
    resolveCrossings 3 1 ≠ [(TradeSide.BUY, 2), (TradeSide.BUY, 1)] := by
  decide

/-- Claim C2 (amended): for every `newLevel < previousLevel`, crossing
resolution emits exactly `previousLevel - newLevel` BUY crossings, one for
each level in the half-open interval `(newLevel, previousLevel]` — i.e.
levels `previousLevel` down to `newLevel + 1` — in descending order. -/
theorem resolveCrossings_buy_descending (previousLevel newLevel : ℕ)
    (h : newLevel < previousLevel) :
    (resolveCrossings previousLevel newLevel).length = previousLevel - newLevel ∧
    ∀ i, i < previousLevel - newLevel →
      (resolveCrossings previousLevel newLevel).getD i (TradeSide.SELL, 0) =
        (TradeSide.BUY, previousLevel - i) :=
  ⟨resolveCrossings_length_buy h, fun _ hi => resolveCrossings_getD_buy h hi⟩

/-- Witness for the amended C2 at `previousLevel = 3`, `newLevel = 1`. -/
theorem resolveCrossings_buy_descending_witness :
    1 < 3 ∧
    ((resolveCrossings 3 1).length = 3 - 1 ∧
      ∀ i, i < 3 - 1 →
        (resolveCrossings 3 1).getD i (TradeSide.SELL, 0) = (TradeSide.BUY, 3 - i)) :=
  ⟨by decide, resolveCrossings_buy_descending 3 1 (by decide)⟩

/-! ### Claim theorems: first observation -/

/-- Claim C4: on the first observation for a grid (no previous level), a tick
with an available (truthy) price executes no trades and sends no swaps: it
records the located level and the price, persists one checkpoint, and
transitions to tracking; the token amounts are untouched. -/
theorem processGrid_first_observation (g : Grid) (p : ℚ) (st : GridState)
    (exec : SwapIntent → Bool) (hp : p ≠ 0) (hinit : st.currentGridIndex = none) :
    processGrid g (some p) st exec =
      ({ st with currentGridIndex := some (findGridLevelIndex g p),
                 lastCheckedPrice := some p },
       [DbWrite.checkpoint p (dbProjectIndex g p)], []) := by
  simp only [processGrid, if_neg hp, hinit]

/-- Witness for C4: `gE` observed for the first time at price 106. -/
theorem processGrid_first_observation_witness :
    (106 : ℚ) ≠ 0 ∧ stInit.currentGridIndex = none ∧
    processGrid gE (some 106) stInit (fun _ => true) =
      ({ stInit with currentGridIndex := some (findGridLevelIndex gE 106),
                     lastCheckedPrice := some 106 },
       [DbWrite.checkpoint 106 (dbProjectIndex gE 106)], []) :=
  ⟨by norm_num, rfl, processGrid_first_observation gE 106 stInit (fun _ => true) (by norm_num) rfl⟩

/-! ### Claim theorems: failure handling and checkpointing -/

/-- Claim C1 (amended): on a tracking tick, execution failures do not stop
the crossing loop — every resolved crossing is still sent to the venue (one
swap intent per crossing), and `currentGridIndex` is set to the newly
located level unconditionally, regardless of which executions failed, so a
failed crossing is skipped rather than retried on the next tick. -/
theorem processGrid_continues_after_failure (g : Grid) (p : ℚ) (st : GridState)
    (exec : SwapIntent → Bool) (prev : ℕ)
    (hw : WellFormedGrid g) (hpos : 0 < g.lowerLimit) (hp : p ≠ 0)
    (hprev : st.currentGridIndex = some prev) (hle : prev ≤ g.gridCount) :
    (processGrid g (some p) st exec).1.currentGridIndex =
      some (findGridLevelIndex g p) ∧
    (processGrid g (some p) st exec).2.2.length =
      (resolveCrossings prev (findGridLevelIndex g p)).length := by
  have hlookup : ∀ c ∈ resolveCrossings prev (findGridLevelIndex g p),
      ∃ q, g.levels.get? c.2 = some q ∧ q ≠ 0 := by
    intro c hc
    exact levels_get?_pos hw hpos
      (resolveCrossings_level_le hle (findGridLevelIndex_le hw p) c hc)
  simp only [processGrid, if_neg hp, hprev]
  by_cases hnew : findGridLevelIndex g p = prev
  · rw [if_pos hnew, hnew]
    refine ⟨rfl, ?_⟩
    rw [resolveCrossings_self]
    rfl
  · rw [if_neg hnew]
    exact ⟨rfl, runCrossings_intents_length g exec _ _ hlookup⟩

/-- Witness for the amended C1: `gE` tracking at level 0, price jumps to 125
with the level-3 sell rejected by the venue. -/
theorem processGrid_continues_after_failure_witness :
    WellFormedGrid gE ∧ 0 < gE.lowerLimit ∧ (125 : ℚ) ≠ 0 ∧
    stE.currentGridIndex = some 0 ∧ 0 ≤ gE.gridCount ∧
    ((processGrid gE (some 125) stE execE).1.currentGridIndex =
        some (findGridLevelIndex gE 125) ∧
      (processGrid gE (some 125) stE execE).2.2.length =
        (resolveCrossings 0 (findGridLevelIndex gE 125)).length) :=
  ⟨by constructor <;> norm_num [gE, List.chain'_cons],
   by norm_num [gE], by norm_num, rfl, by norm_num [gE],
   processGrid_continues_after_failure gE 125 stE execE 0
     (by constructor <;> norm_num [gE, List.chain'_cons])
     (by norm_num [gE]) (by norm_num) rfl (by norm_num [gE])⟩

/-- Claim C9 (amended): on a tracking tick with an available price, the
checkpoint write (`updateGridCurrentPrice`, storing the observed price and a
level index the persistence layer recomputes itself) is issued after the
crossing loop exactly when the located level differs from the previous one —
in that case it is the last database write, whether or not executions
failed; when the level is unchanged, nothing is persisted. -/
theorem processGrid_checkpoint_on_level_change (g : Grid) (p : ℚ) (st : GridState)
    (exec : SwapIntent → Bool) (prev : ℕ)
    (hp : p ≠ 0) (hprev : st.currentGridIndex = some prev) :
    (findGridLevelIndex g p = prev → (processGrid g (some p) st exec).2.1 = []) ∧
    (findGridLevelIndex g p ≠ prev →
      (processGrid g (some p) st exec).2.1.getLast? =
        some (DbWrite.checkpoint p (dbProjectIndex g p))) := by
  simp only [processGrid, if_neg hp, hprev]
  constructor
  · intro hsame
    rw [if_pos hsame]
  · intro hdiff
    rw [if_neg hdiff]
    exact List.getLast?_concat _

/-- Witness for the amended C9: both branches at concrete inputs — price 106
keeps `gE` at level 1 (no write), price 125 moves it (checkpoint last). -/
theorem processGrid_checkpoint_on_level_change_witness :
    (106 : ℚ) ≠ 0 ∧ stSame.currentGridIndex = some 1 ∧
    (findGridLevelIndex gE 106 = 1 → (processGrid gE (some 106) stSame execE).2.1 = []) ∧
    (findGridLevelIndex gE 106 ≠ 1 →
      (processGrid gE (some 106) stSame execE).2.1.getLast? =
        some (DbWrite.checkpoint 106 (dbProjectIndex gE 106))) :=
  ⟨by norm_num, rfl,
   (processGrid_checkpoint_on_level_change gE 106 stSame execE 1 (by norm_num) rfl).1,
   (processGrid_checkpoint_on_level_change gE 106 stSame execE 1 (by norm_num) rfl).2⟩

/-! ### Claim theorems: locator versus persistence-side projection -/

/-- Claim C3: on a well-formed grid (strictly increasing table anchored at
the limits, the GridConfig invariant), the locator returns 0 at or below
`table[0]`, `gridCount` at or above `table[gridCount]`, and otherwise the
unique `i` with `table[i] ≤ p < table[i+1]`; a price equal to an interior
boundary thus resolves to that boundary's own level. -/
theorem findGridLevelIndex_locate_spec (g : Grid) (p : ℚ) (hw : WellFormedGrid g) :
    (p ≤ g.levels.getD 0 0 → findGridLevelIndex g p = 0) ∧
    (g.levels.getD g.gridCount 0 ≤ p → findGridLevelIndex g p = g.gridCount) ∧
    (g.levels.getD 0 0 < p → p < g.levels.getD g.gridCount 0 →
      (g.levels.getD (findGridLevelIndex g p) 0 ≤ p ∧
        p < g.levels.getD (findGridLevelIndex g p + 1) 0) ∧
      ∀ j, j + 1 ≤ g.gridCount → g.levels.getD j 0 ≤ p → p < g.levels.getD (j + 1) 0 →
        j = findGridLevelIndex g p) := by
  refine ⟨?_, ?_, ?_⟩
  · intro hp
    exact findGridLevelIndex_of_le_lower hw (by rw [← hw.2.2.1]; exact hp)
  · intro hp
    exact findGridLevelIndex_of_upper_le (by rw [← hw.2.2.2.1]; exact hp)
  · intro h1 h2
    have hint := findGridLevelIndex_interior hw
      (by rw [← hw.2.2.1]; exact h1) (by rw [← hw.2.2.2.1]; exact h2)
    refine ⟨⟨hint.2.2.1, hint.2.2.2⟩, ?_⟩
    intro j hj hj1 hj2
    have hlen := hw.1
    exact slot_unique hw.2.1 (by omega) (by omega) hj1 hj2 hint.2.2.1 hint.2.2.2

/-- Witness for C3: `gE` with price 107 (and the boundary price 110). -/
theorem findGridLevelIndex_locate_spec_witness :
    WellFormedGrid gE ∧
    ((107 : ℚ) ≤ gE.levels.getD 0 0 → findGridLevelIndex gE 107 = 0) ∧
    (gE.levels.getD gE.gridCount 0 ≤ 107 → findGridLevelIndex gE 107 = gE.gridCount) ∧
    (gE.levels.getD 0 0 < 107 → 107 < gE.levels.getD gE.gridCount 0 →
      (gE.levels.getD (findGridLevelIndex gE 107) 0 ≤ 107 ∧
        107 < gE.levels.getD (findGridLevelIndex gE 107 + 1) 0) ∧
      ∀ j, j + 1 ≤ gE.gridCount → gE.levels.getD j 0 ≤ 107 →
        107 < gE.levels.getD (j + 1) 0 → j = findGridLevelIndex gE 107) :=
  ⟨by constructor <;> norm_num [gE, List.chain'_cons],
   findGridLevelIndex_locate_spec gE 107 (by constructor <;> norm_num [gE, List.chain'_cons])⟩

/-- Claim C10 (amended): the persisted projection and the in-memory locator
disagree exactly at prices strictly below the lowest boundary or at/above
the highest: there `updateGridCurrentPrice` stores `null` while
`findGridLevelIndex` clamps to 0 or `gridCount`; for prices from the lower
boundary (inclusive) up to the upper boundary (exclusive) — including a
price exactly at the lower limit — the stored index equals the in-memory
level. -/
theorem dbProjectIndex_vs_findGridLevelIndex (g : Grid) (p : ℚ) (hw : WellFormedGrid g) :
    (p < g.lowerLimit → dbProjectIndex g p = none ∧ findGridLevelIndex g p = 0) ∧
    (g.upperLimit ≤ p → dbProjectIndex g p = none ∧
      findGridLevelIndex g p = g.gridCount) ∧
    (g.lowerLimit ≤ p → p < g.upperLimit →
      dbProjectIndex g p = some (findGridLevelIndex g p)) := by
  have hsort := sortByPrice_levelPairs_eq hw
  refine ⟨?_, ?_, ?_⟩
  · intro hp
    refine ⟨?_, findGridLevelIndex_of_le_lower hw (le_of_lt hp)⟩
    rw [dbProjectIndex, hsort]
    refine scanLevels_eq_none_of_lt ?_
    intro a ha
    have hmem : a.2 ∈ g.levels := snd_mem_of_mem_enumFrom ha
    have hge := head_le_of_mem hw.2.1 hmem
    rw [hw.2.2.1] at hge
    exact lt_of_lt_of_le hp hge
  · intro hp
    refine ⟨?_, findGridLevelIndex_of_upper_le hp⟩
    rw [dbProjectIndex, hsort]
    refine scanLevels_eq_none_of_le ?_
    intro a ha
    have hmem : a.2 ∈ g.levels := snd_mem_of_mem_enumFrom ha
    have hle := mem_le_last hw.2.1 hmem
    rw [show g.levels.length - 1 = g.gridCount from by have := hw.1; omega,
      hw.2.2.2.1] at hle
    exact le_trans hle hp
  · intro hp1 hp2
    rcases eq_or_lt_of_le hp1 with heq | hlt
    · have hfind : findGridLevelIndex g p = 0 :=
        findGridLevelIndex_of_le_lower hw (le_of_eq heq.symm)
      rw [dbProjectIndex, hsort, hfind]
      have hlen := hw.1
      have hcount := hw.2.2.2.2
      have hscan := scanLevels_enumFrom_eq_some (p := p) 0 0 hw.2.1
        (by omega) (by rw [hw.2.2.1]; exact le_of_eq heq)
        (by
          have h01 : g.levels.getD 0 0 < g.levels.getD 1 0 :=
            chain'_getD_lt hw.2.1 Nat.zero_lt_one (by omega)
          rw [hw.2.2.1] at h01
          exact lt_of_le_of_lt (le_of_eq heq.symm) h01)
      simpa using hscan
    · have hint := findGridLevelIndex_interior hw hlt hp2
      rw [dbProjectIndex, hsort]
      exact hint.1

/-- Witness for the amended C10: `gE` at prices 98 (below range), 125 (at the
upper boundary) and 100 (exactly the lower boundary). -/
theorem dbProjectIndex_vs_findGridLevelIndex_witness :
    WellFormedGrid gE ∧
    ((98 : ℚ) < gE.lowerLimit → dbProjectIndex gE 98 = none ∧ findGridLevelIndex gE 98 = 0) ∧
    (gE.upperLimit ≤ 98 → dbProjectIndex gE 98 = none ∧
      findGridLevelIndex gE 98 = gE.gridCount) ∧
    (gE.lowerLimit ≤ 98 → 98 < gE.upperLimit →
      dbProjectIndex gE 98 = some (findGridLevelIndex gE 98)) :=
  ⟨by constructor <;> norm_num [gE, List.chain'_cons],
   dbProjectIndex_vs_findGridLevelIndex gE 98 (by constructor <;> norm_num [gE, List.chain'_cons])⟩

/-! ### Counterexamples and concrete evaluations -/

/-- Counterexample to claim C1 as stated: `gE` tracks at level 0, price 125
resolves five sell crossings (levels 1..5) and the venue rejects the 3rd
(level 3).  The claim predicts `currentLevel` advances exactly 2 levels and
the remaining crossings are not processed; the code instead sends all five
swaps, records the four successful trades (levels 1, 2, 4, 5 — level 3 is
skipped, not retried), and advances `currentGridIndex` to 5. -/
theorem processGrid_stop_on_failure_counterexample :
    (processGrid gE (some 125) stE execE).1.currentGridIndex = some 5 ∧
    tradeLevels (processGrid gE (some 125) stE execE).2.1 = [1, 2, 4, 5] ∧
    (processGrid gE (some 125) stE execE).2.2.length = 5 ∧
    (some 5 : Option ℕ) ≠ some 2 ∧ ([1, 2, 4, 5] : List ℕ) ≠ [1, 2] := by
  have hres : resolveCrossings 0 5 =
      [(TradeSide.SELL, 1), (TradeSide.SELL, 2), (TradeSide.SELL, 3),
       (TradeSide.SELL, 4), (TradeSide.SELL, 5)] := by decide
  refine ⟨?_, ?_, ?_, by simp, by simp⟩ <;>
    norm_num [processGrid, findGridLevelIndex, hres, runCrossings, executeSellTrade,
      executeBuyTrade, tradeLevels, tradeLevel?, List.filterMap_cons, gE, stE, execE]

/-- Counterexample to claim C9 as stated: a tracking tick of `gE` at price
106 whose level (1) is unchanged issues no database write at all — the
checkpoint is only persisted when the level changed. -/
theorem processGrid_checkpoint_unchanged_counterexample :
    stSame.currentGridIndex = some 1 ∧ findGridLevelIndex gE 106 = 1 ∧
    (processGrid gE (some 106) stSame execE).2.1 = [] := by
  refine ⟨rfl, ?_, ?_⟩ <;>
    norm_num [processGrid, findGridLevelIndex, sortByPrice, insertByPrice, scanLevels,
      levelPairs, List.enumFrom, gE, stSame]

/-- Counterexample to claim C10 as stated: at a price exactly equal to the
lowest boundary (100 = `gE.lowerLimit`), `updateGridCurrentPrice` stores
index `some 0`, not `null`, and agrees with the in-memory locator — the
claimed divergence region "at or below the lowest boundary" is wrong at the
boundary itself. -/
theorem dbProjectIndex_lower_boundary_counterexample :
    gE.lowerLimit = 100 ∧ dbProjectIndex gE 100 = some 0 ∧
    findGridLevelIndex gE 100 = 0 ∧ (some 0 : Option ℕ) ≠ none := by
  refine ⟨rfl, ?_, ?_, by simp⟩
  · norm_num [dbProjectIndex, sortByPrice, insertByPrice, scanLevels, levelPairs,
      List.enumFrom, gE]
  · norm_num [findGridLevelIndex, gE]

/-- Claim C6 (code bug, BUY side), evaluated at `gE` (level 2 price 110,
`quantityPerLevel = 100/5 = 20`): the swap handed to the venue uses the
source-side mint as input token — contradicting the code's own inline
comment `// from targetToken (e.g., USDC)` — while carrying the target-side
amount `⌊20·10^6⌋`; and the recorded trade row pairs the target-side
`inputToken` with `inputAmount = quantityPerLevel / levelPrice = 2/11`
(and `outputAmount = quantityPerLevel`), not `inputAmount = quantityPerLevel`
as the claim (and the row's own semantics) require. -/
theorem executeBuyTrade_swapped_inputs_eval :
    gE.sourceTokenId = "SOLID" ∧ gE.targetTokenId = "USDCID" ∧
    gE.targetTokenSymbol = "USDC" ∧
    gE.quantityInvested / (gE.gridCount : ℚ) = 20 ∧
    (executeBuyTrade gE 2 stE (fun _ => true)).2.2 =
      some { inputMint := "SOLID", outputMint := "USDCID", amount := 20000000,
             slippageBps := 100 } ∧
    (executeBuyTrade gE 2 stE (fun _ => true)).2.1 =
      [DbWrite.tokenAmounts (10 + 2 / 11) (1000 - 20),
       DbWrite.incTrades 1 0,
       DbWrite.trade
         { side := TradeSide.BUY, inputToken := "USDC", outputToken := "SOL",
           inputTokenId := "USDCID", outputTokenId := "SOLID",
           inputAmount := 2 / 11, outputAmount := 20, gridLevel := 2,
           profit := none }] ∧
    (2 / 11 : ℚ) ≠ 20 := by
  refine ⟨rfl, rfl, rfl, by norm_num [gE], ?_, ?_, by norm_num⟩ <;>
    norm_num [executeBuyTrade, gE, stE]

/-! ### Claim theorems: profit attribution -/

theorem getD_of_get?_eq_some {l : List ℚ} {i : ℕ} {q : ℚ}
    (h : l.get? i = some q) : l.getD i 0 = q := by
  rw [List.getD_eq_getElem?_getD, ← List.get?_eq_getElem?, h]
  rfl

/-- Claim C7: every recorded SELL trade's profit is
`(sellBoundaryPrice - referenceBuyPrice) * inputAmount`, with the reference
price the boundary one level below (or the grid's lower limit at level 0),
and a recorded BUY trade never carries a profit. -/
theorem tradeProfit_attribution :
    (∀ (g : Grid) (lvl : ℕ) (st : GridState) (exec : SwapIntent → Bool) (row : TradeRow),
        DbWrite.trade row ∈ (executeSellTrade g lvl st exec).2.1 →
        row.profit = some ((g.levels.getD lvl 0 -
            (if 0 < lvl then g.levels.getD (lvl - 1) 0 else g.lowerLimit)) *
          row.inputAmount)) ∧
    (∀ (g : Grid) (lvl : ℕ) (st : GridState) (exec : SwapIntent → Bool) (row : TradeRow),
        DbWrite.trade row ∈ (executeBuyTrade g lvl st exec).2.1 → row.profit = none) := by
  constructor
  · intro g lvl st exec row hmem
    unfold executeSellTrade at hmem
    cases hq : g.levels.get? lvl with
    | none => rw [hq] at hmem; simp at hmem
    | some q =>
      rw [hq] at hmem
      by_cases h0 : q = 0
      · simp only [if_pos h0] at hmem
        simp at hmem
      · simp only [if_neg h0] at hmem
        split at hmem
        · simp only [List.mem_cons, List.not_mem_nil, or_false] at hmem
          rcases hmem with h | h | h
          · exact absurd h (by simp)
          · exact absurd h (by simp)
          · rw [DbWrite.trade.injEq] at h
            subst h
            rw [getD_of_get?_eq_some hq]
        · simp at hmem
  · intro g lvl st exec row hmem
    unfold executeBuyTrade at hmem
    cases hq : g.levels.get? lvl with
    | none => rw [hq] at hmem; simp at hmem
    | some q =>
      rw [hq] at hmem
      by_cases h0 : q = 0
      · simp only [if_pos h0] at hmem
        simp at hmem
      · simp only [if_neg h0] at hmem
        split at hmem
        · simp only [List.mem_cons, List.not_mem_nil, or_false] at hmem
          rcases hmem with h | h | h
          · exact absurd h (by simp)
          · exact absurd h (by simp)
          · rw [DbWrite.trade.injEq] at h
            subst h
            rfl
        · simp at hmem

/-- Witness for C7: the recorded sell of `gE` at level 2
(`(110 - 105) * 2/11 = 10/11`). -/
theorem tradeProfit_attribution_witness :
    ∃ row : TradeRow,
      DbWrite.trade row ∈ (executeSellTrade gE 2 stE (fun _ => true)).2.1 ∧
      row.profit = some ((gE.levels.getD 2 0 -
        (if 0 < 2 then gE.levels.getD (2 - 1) 0 else gE.lowerLimit)) * row.inputAmount) := by
  have hmem : DbWrite.trade
      { side := TradeSide.SELL, inputToken := "SOL", outputToken := "USDC",
        inputTokenId := "SOLID", outputTokenId := "USDCID",
        inputAmount := 2 / 11, outputAmount := 20, gridLevel := 2,
        profit := some (10 / 11) } ∈ (executeSellTrade gE 2 stE (fun _ => true)).2.1 := by
    norm_num [executeSellTrade, gE, stE]
  exact ⟨_, hmem, tradeProfit_attribution.1 gE 2 stE (fun _ => true) _ hmem⟩

/-! ### Claim theorems: grid range edits -/

theorem round6_intCast_div (a : ℤ) : round6 ((a : ℚ) / 1000000) = (a : ℚ) / 1000000 := by
  unfold round6
  rw [div_mul_cancel₀ _ (by norm_num : (1000000 : ℚ) ≠ 0), add_comm, Int.floor_add_int]
  norm_num

theorem newLevelTable_length (lower upper : ℚ) (n : ℕ) :
    (newLevelTable lower upper n).length = n + 1 := by
  rw [newLevelTable, List.length_map, List.length_range]

theorem newLevelTable_getD (lower upper : ℚ) (n i : ℕ) (hi : i < n + 1) :
    (newLevelTable lower upper n).getD i 0 =
      round6 (lower + ((upper - lower) / (n : ℚ)) * (i : ℚ)) := by
  have hlen : i < (newLevelTable lower upper n).length := by
    rw [newLevelTable_length]; omega
  rw [List.getD_eq_getElem?_getD, List.getElem?_eq_getElem hlen]
  simp only [newLevelTable, List.getElem_map, List.getElem_range, Option.getD_some]

theorem newLevelTable_getD_zero {lower : ℚ} (upper : ℚ) {n : ℕ} (a : ℤ)
    (ha : lower = (a : ℚ) / 1000000) (hn : 0 < n) :
    (newLevelTable lower upper n).getD 0 0 = lower := by
  rw [newLevelTable_getD lower upper n 0 (by omega)]
  simp only [Nat.cast_zero, mul_zero, add_zero]
  rw [ha]
  exact round6_intCast_div a

theorem newLevelTable_getD_last (lower : ℚ) {upper : ℚ} {n : ℕ} (b : ℤ)
    (hb : upper = (b : ℚ) / 1000000) (hn : 0 < n) :
    (newLevelTable lower upper n).getD n 0 = upper := by
  rw [newLevelTable_getD lower upper n n (by omega)]
  have hn0 : (n : ℚ) ≠ 0 := Nat.cast_ne_zero.mpr (by omega)
  rw [div_mul_cancel₀ _ hn0, show lower + (upper - lower) = upper from by ring, hb]
  exact round6_intCast_div b

/-- Counterexample to claim C8 as stated: editing `g8` to the range
`[0, 1]` with 3 levels stores the table `[0, 0.333333, 0.666667, 1]` —
each boundary is rounded to six decimal places (`toFixed(6)`), so the
stored table is not evenly spaced (first gap `0.333333`, second
`0.333334`). -/
theorem updateGridPriceLimits_even_spacing_counterexample :
    (updateGridPriceLimits g8 1 0 (some 3)).map Grid.levels =
      some [0, 333333 / 1000000, 666667 / 1000000, 1] ∧
    (333333 / 1000000 : ℚ) - 0 ≠ (666667 / 1000000 : ℚ) - 333333 / 1000000 := by
  constructor
  · norm_num [updateGridPriceLimits, newLevelTable, round6, g8,
      show List.range 4 = [0, 1, 2, 3] from rfl]
  · norm_num

/-- Claim C8 (amended): on a valid edit (`lower < upper`, resulting level
count ≥ 2) with a truthy stored last price, the new table is the evenly
spaced table with each boundary rounded to six decimals; provided the
limits are exact multiples of `10^-6` and the rounded table is still
strictly increasing (which holds whenever the step is at least `10^-6`),
the stored `currentGridIndex` is reprojected in the same update to exactly
the level the in-memory locator assigns the last price against the new
table, and the very next tick at the unchanged price produces no trades,
no swap intents and no writes. -/
theorem updateGridPriceLimits_reprojection
    (g : Grid) (upper lower : ℚ) (count? : Option ℕ) (n : ℕ) (p : ℚ) (a b : ℤ)
    (hcount : count?.getD g.gridCount = n)
    (hlu : lower < upper) (hn : 2 ≤ n)
    (hp : g.currentPrice = some p) (hp0 : p ≠ 0)
    (ha : lower = (a : ℚ) / 1000000) (hb : upper = (b : ℚ) / 1000000)
    (hchain : (newLevelTable lower upper n).Chain' (· < ·)) :
    ∃ g', updateGridPriceLimits g upper lower count? = some g' ∧
      g'.levels = newLevelTable lower upper n ∧
      g'.gridCount = n ∧
      g'.currentGridIndex = some (findGridLevelIndex g' p) ∧
      ∀ st exec, st.currentGridIndex = g'.currentGridIndex →
        processGrid g' (some p) st exec =
          ({ st with lastCheckedPrice := some p }, [], []) := by
  set t := newLevelTable lower upper n with ht
  set idx : Option ℕ :=
      (if p ≤ lower then some 0 else if upper ≤ p then some n
       else scanLevels p (t.enumFrom 0)) with hidx
  set g' : Grid := { g with upperLimit := upper, lowerLimit := lower, gridCount := n, levels := t, currentGridIndex := idx } with hg'
  have hupd : updateGridPriceLimits g upper lower count? = some g' := by
    rw [updateGridPriceLimits, if_neg (not_le.mpr hlu)]
    simp only [hcount, hp]
    rw [if_neg (by omega : ¬ n < 2), if_neg hp0, hg', hp]
  have hw' : WellFormedGrid g' := by
    refine ⟨?_, ?_, ?_, ?_, hn⟩
    · show t.length = n + 1
      rw [ht, newLevelTable_length]
    · exact hchain
    · show t.getD 0 0 = lower
      rw [ht]
      exact newLevelTable_getD_zero upper a ha (by omega)
    · show t.getD n 0 = upper
      rw [ht]
      exact newLevelTable_getD_last lower b hb (by omega)
  have hidx_eq : idx = some (findGridLevelIndex g' p) := by
    rcases le_or_lt p lower with hpl | hpl
    · rw [hidx, if_pos hpl,
        findGridLevelIndex_of_le_lower hw' (show p ≤ g'.lowerLimit from hpl)]
    · rcases le_or_lt upper p with hpu | hpu
      · rw [hidx, if_neg (not_le.mpr hpl), if_pos hpu,
          findGridLevelIndex_of_upper_le (show g'.upperLimit ≤ p from hpu)]
      · have hint := findGridLevelIndex_interior hw'
          (show g'.lowerLimit < p from hpl) (show p < g'.upperLimit from hpu)
        rw [hidx, if_neg (not_le.mpr hpl), if_neg (not_le.mpr hpu)]
        exact hint.1
  refine ⟨g', hupd, rfl, rfl, hidx_eq, ?_⟩
  intro st exec hst
  have hprev : st.currentGridIndex = some (findGridLevelIndex g' p) := by
    rw [hst]
    exact hidx_eq
  simp only [processGrid, if_neg hp0, hprev]
  simp

/-- Witness for the amended C8: `g8` (last price 106) edited to range
`[90, 130]` with 4 levels; the rounded table is `[90, 100, 110, 120, 130]`. -/
theorem updateGridPriceLimits_reprojection_witness :
    (some 4 : Option ℕ).getD g8.gridCount = 4 ∧ (90 : ℚ) < 130 ∧ 2 ≤ 4 ∧
    g8.currentPrice = some 106 ∧ (106 : ℚ) ≠ 0 ∧
    (90 : ℚ) = ((90000000 : ℤ) : ℚ) / 1000000 ∧
    (130 : ℚ) = ((130000000 : ℤ) : ℚ) / 1000000 ∧
    (newLevelTable 90 130 4).Chain' (· < ·) ∧
    ∃ g', updateGridPriceLimits g8 130 90 (some 4) = some g' ∧
      g'.levels = newLevelTable 90 130 4 ∧
      g'.gridCount = 4 ∧
      g'.currentGridIndex = some (findGridLevelIndex g' 106) ∧
      ∀ st exec, st.currentGridIndex = g'.currentGridIndex →
        processGrid g' (some 106) st exec =
          ({ st with lastCheckedPrice := some 106 }, [], []) := by
  have htable : newLevelTable 90 130 4 = [90, 100, 110, 120, 130] := by
    norm_num [newLevelTable, round6, show List.range 5 = [0, 1, 2, 3, 4] from rfl]
  have hchain : (newLevelTable 90 130 4).Chain' (· < ·) := by
    rw [htable]
    norm_num [List.chain'_cons]
  exact ⟨rfl, by norm_num, by norm_num, rfl, by norm_num, by norm_num, by norm_num, hchain,
    updateGridPriceLimits_reprojection g8 130 90 (some 4) 4 106 90000000 130000000
      rfl (by norm_num) (by norm_num) rfl (by norm_num) (by norm_num) (by norm_num) hchain⟩
